import Mathlib

/-!
Shallow embedding of the raw-buffer-op lowering in
`mlir/lib/Conversion/AMDGPUToROCDL/AMDGPUToROCDL.cpp`
(`RawBufferOpLowering::matchAndRewrite`), together with theorems settling
the claims about it.

Modelling conventions:
- Machine integers are `Nat` (bit patterns) with explicit `% 2 ^ 32` or
  `% 2 ^ 64` where the source truncates or wraps (`LLVM::TruncOp`,
  `static_cast<int32_t>`, narrowing into `createI32Constant`'s `int32_t`
  parameter, fixed-width arithmetic).
- Static shape information (memref sizes, strides, offset) is a tagged
  value `known v` / `dynamic`, mirroring the `ShapedType` dynamic
  sentinels tested by `hasStaticShape` / `isDynamicStrideOrOffset`.
- Values that the lowering emits as IR are represented semantically: a
  compile-time constant carries its 32-bit pattern, a runtime computation
  is a function of a `RuntimeEnv` holding the runtime values of the memref
  descriptor fields and the operands.
- Diagnostics are an error enumeration (one constructor per `emitOpError`
  site), since only their identity matters to the claims.
-/

namespace AMDGPUToROCDL

/-- Chipset version record, as held by `RawBufferOpLowering::chipset`. -/
structure Chipset where
  majorVersion : Nat
  minorVersion : Nat
deriving DecidableEq

/-- Static memref dimension size: a known extent or the dynamic sentinel
(`ShapedType::isDynamic`). -/
inductive SSize where
  | known (v : Nat)
  | dynamic
deriving DecidableEq

/-- Static stride or offset entry as returned by `getStridesAndOffset`:
a known `int64_t` or the dynamic sentinel
(`ShapedType::isDynamicStrideOrOffset`). -/
inductive SVal where
  | known (v : Int)
  | dynamic
deriving DecidableEq

/-- Static description of the memref operand. `stridesAndOffset = none`
models `getStridesAndOffset` failing (non-strided layout). -/
structure MemRefInfo where
  elementBitWidth : Nat
  shape : List SSize
  stridesAndOffset : Option (List SVal × SVal)
deriving DecidableEq

/-- Runtime values feeding the emitted IR: the aligned base pointer as an
integer, the dynamic size / stride / offset fields of the lowered memref
descriptor, and the runtime values of the index and sgpr-offset operands. -/
structure RuntimeEnv where
  baseAddr : Nat
  size : Nat → Nat
  stride : Nat → Nat
  offset : Nat
  index : Nat → Nat
  sgpr : Nat

/-- A 32-bit value the lowering emits: either an `LLVM::ConstantOp`
(compile-time constant bit pattern) or a runtime computation. -/
inductive I32Val where
  | const (v : Nat)
  | dyn (f : RuntimeEnv → Nat)

/-- Runtime value of an emitted 32-bit value. -/
def I32Val.eval (x : I32Val) (env : RuntimeEnv) : Nat :=
  match x with
  | .const v => v
  | .dyn f => f env

/-- Bit pattern stored by `createI32Constant` for an `int64_t` expression
narrowed to its `int32_t` parameter: the value modulo `2 ^ 32`. -/
def i32pat (v : Int) : Nat := (v % (2 ^ 32 : Int)).toNat

/-- Error taxonomy, one constructor per `emitOpError` call in
`matchAndRewrite` (the source messages are, in order: the GCN-generation
message, the 128-bit total-width message, the does-not-fit-into-words
message, and the non-stride-offset-memref message). -/
inductive LoweringError where
  | unsupportedChipset
  | oversizedAccess
  | misalignedPackedWidth
  | unrepresentableLayout
deriving DecidableEq

/-- Logical or wire data type: a non-vector type of a given bit width, or
a vector of `numElements` elements of `elemBits` bits each. -/
inductive DataType where
  | scalar (bits : Nat)
  | vector (numElements : Nat) (elemBits : Nat)
deriving DecidableEq

/-- Total bit width of a data type. -/
def bitWidthOf : DataType → Nat
  | .scalar b => b
  | .vector n b => n * b

/-- Source constant `maxVectorOpWidth = 128`. -/
def maxVectorOpWidth : Nat := 128

/-- Width adaptation (source lines 73-95): compute `llvmBufferValType`
from `wantedDataType`. `totalBits` is a `uint32_t` in the source, so the
product `elemBits * numElements` is reduced modulo `2 ^ 32`. -/
def bufferValType (wantedDataType : DataType) : Except LoweringError DataType :=
  match wantedDataType with
  | .scalar _ => .ok wantedDataType
  | .vector numElements elemBits =>
      let totalBits := (elemBits * numElements) % 2 ^ 32
      if totalBits > maxVectorOpWidth then
        .error .oversizedAccess
      else if elemBits < 32 then
        if totalBits > 32 then
          if totalBits % 32 ≠ 0 then
            .error .misalignedPackedWidth
          else
            .ok (.vector (totalBits / 32) 32)
        else
          .ok (.scalar totalBits)
      else
        .ok wantedDataType

/-- Source line 66: `elementByteWidth = getElementTypeBitWidth() / 8`,
a truncating `int64_t` division. -/
def elementByteWidth (elementBitWidth : Nat) : Nat := elementBitWidth / 8

/-- LLVM `bitcast` between same-width types: a pure reinterpretation, the
bit pattern is unchanged. -/
def bitcast (_target : DataType) (bits : Nat) : Nat := bits

/-- Store-side boundary (source lines 98-106): the data operand is
bitcast to the wire type when it differs from the logical type. -/
def storeWireBits (wanted buf : DataType) (bits : Nat) : Nat :=
  if buf ≠ wanted then bitcast buf bits else bits

/-- Load-side boundary (source lines 243-249): the intrinsic result is
bitcast back to the logical type when the wire type differs from it. -/
def loadLogicalBits (wanted buf : DataType) (bits : Nat) : Nat :=
  if buf ≠ wanted then bitcast wanted bits else bits

/-- Descriptor word 0 (source lines 130-135): the base address truncated
to 32 bits (`LLVM::TruncOp` of the 64-bit `ptrtoint`). -/
def descWord0 (baseAddr : Nat) : Nat := (baseAddr % 2 ^ 64) % 2 ^ 32

/-- Descriptor word 1 (source lines 140-147): the base address shifted
right by 32 (`LLVM::LShrOp`), truncated to 32 bits (`LLVM::TruncOp`), and
masked with `0x0000ffff` (`LLVM::AndOp`). -/
def descWord1 (baseAddr : Nat) : Nat :=
  (((baseAddr % 2 ^ 64) >>> 32) % 2 ^ 32) &&& 0xffff

/-- True iff every dimension size is statically known
(`MemRefType::hasStaticShape`). -/
def hasStaticShape : List SSize → Bool
  | [] => true
  | .known _ :: rest => hasStaticShape rest
  | .dynamic :: _ => false

/-- Product of the static dimension sizes (`ShapedType::getNumElements`;
only meaningful when `hasStaticShape` holds, which the source asserts). -/
def staticNumElements : List SSize → Nat
  | [] => 1
  | .known v :: rest => v * staticNumElements rest
  | .dynamic :: _ => 0

/-- One candidate of the dynamic record-count loop (source lines 157-160):
`size(i) * (stride(i) * byteWidthConst)`, computed in 64-bit arithmetic. -/
def dynCandidate (ebw i : Nat) (env : RuntimeEnv) : Nat :=
  (env.size i * ((env.stride i * ebw) % 2 ^ 64)) % 2 ^ 64

/-- The dynamic record-count accumulation loop (source lines 155-164):
`maxIndex = maxIndex ? max(maxIndex, maxThisDim) : maxThisDim` over the
dimension numbers in `dims`. -/
def numRecordsLoop (ebw : Nat) (dims : List Nat)
    (acc : Option (RuntimeEnv → Nat)) : Option (RuntimeEnv → Nat) :=
  match dims with
  | [] => acc
  | i :: rest =>
      let maxThisDim := dynCandidate ebw i
      let acc2 :=
        match acc with
        | none => some maxThisDim
        | some f => some (fun env => max (f env) (maxThisDim env))
      numRecordsLoop ebw rest acc2

/-- Descriptor word 2 / `numRecords` (source lines 149-166): a constant
`static_cast<int32_t>(getNumElements() * elementByteWidth)` when the shape
is static, else the runtime max-reduction truncated to 32 bits
(`LLVM::TruncOp`). The `none` result models the (unreachable for a
dynamic shape) rank-0 loop leaving `maxIndex` null. -/
def lowerNumRecords (shape : List SSize) (ebw : Nat) : Option I32Val :=
  if hasStaticShape shape then
    some (.const (i32pat ((staticNumElements shape * ebw : Nat) : Int)))
  else
    match numRecordsLoop ebw (List.range shape.length) none with
    | none => none
    | some f => some (.dyn (fun env => f env % 2 ^ 32))

/-- Descriptor word 3 (source lines 185-190): the fixed format fields
`(7 << 12) | (4 << 15)`; on `majorVersion == 10` additionally bit 24 and
the out-of-bounds field `(boundsCheck ? 3 : 2) << 28`. -/
def descWord3 (c : Chipset) (boundsCheck : Bool) : Nat :=
  let w := (7 <<< 12) ||| (4 <<< 15)
  if c.majorVersion = 10 then
    let w2 := w ||| (1 <<< 24)
    let oob : Nat := if boundsCheck then 3 else 2
    w2 ||| (oob <<< 28)
  else
    w

/-- The voffset accumulation loop (source lines 199-213), iterating over
the strides of the indexed dimensions with the running dimension number
`i`: each term is `index_i * strideOp` where `strideOp` is the constant
`createI32Constant(strides[i] * elementByteWidth)` for a static stride and
the runtime product `stride(i) * byteWidthConst` for a dynamic one;
`voffset = voffset ? add(voffset, term) : term`. -/
def lowerVoffsetLoop (ebw : Nat) (strides : List SVal) (i : Nat)
    (acc : Option (RuntimeEnv → Nat)) : Option (RuntimeEnv → Nat) :=
  match strides with
  | [] => acc
  | s :: rest =>
      let strideOp : RuntimeEnv → Nat :=
        match s with
        | .dynamic => fun env => (env.stride i * ebw) % 2 ^ 64
        | .known v => fun _ => i32pat (v * (ebw : Int))
      let term : RuntimeEnv → Nat := fun env => (env.index i * strideOp env) % 2 ^ 32
      let acc2 :=
        match acc with
        | none => some term
        | some f => some (fun env => (f env + term env) % 2 ^ 32)
      lowerVoffsetLoop ebw rest (i + 1) acc2

/-- Full voffset construction (source lines 197-220): the loop above,
then, when an `indexOffset` attribute is present, the constant
`int32_t indexOffset = *getIndexOffset() * elementByteWidth` is added (or
becomes the whole value when the loop contributed nothing). The result is
`none` when the source leaves `voffset` a null `Value`. -/
def lowerVoffset (ebw : Nat) (strides : List SVal) (indexOffset : Option Int) :
    Option (RuntimeEnv → Nat) :=
  let v := lowerVoffsetLoop ebw strides 0 none
  match indexOffset with
  | none => v
  | some io =>
      let c := i32pat (io * (ebw : Int))
      match v with
      | none => some (fun _ => c)
      | some f => some (fun env => (f env + c) % 2 ^ 32)

/-- The sgprOffset construction (source lines 223-232): start from the
sgpr-offset operand if present, else `createI32Constant(0)`; when the
static offset is the dynamic sentinel add the runtime offset field; else
when `offset > 0` add `createI32Constant(offset)`. -/
def lowerSgprOffset (hasSgprOffset : Bool) (offset : SVal) : RuntimeEnv → Nat :=
  fun env =>
    let sgprOffset : Nat := if hasSgprOffset then env.sgpr else 0
    match offset with
    | .dynamic => (env.offset + sgprOffset) % 2 ^ 32
    | .known v => if 0 < v then (sgprOffset + i32pat v) % 2 ^ 32 else sgprOffset

/-- Static description of one raw-buffer access operation, as supplied by
the op and its adaptor: for a load `hasStoreData = false` and
`numResults = 1`, for a store or atomic-add `hasStoreData = true` and
`numResults = 0`; `wantedDataType` is the data operand type (store,
atomic) or the result type (load). -/
structure LoweringInput where
  chipset : Chipset
  memref : MemRefInfo
  hasStoreData : Bool
  wantedDataType : DataType
  boundsCheck : Bool
  numIndices : Nat
  indexOffset : Option Int
  hasSgprOffset : Bool
  numResults : Nat
deriving DecidableEq

/-- Everything `matchAndRewrite` emits for one op: the wire type, the
four descriptor words, the two offsets, the zero aux-flags constant, and
whether the boundary bitcasts were inserted. -/
structure LoweredOp where
  bufferValTy : DataType
  word0 : RuntimeEnv → Nat
  word1 : RuntimeEnv → Nat
  numRecords : Option I32Val
  word3 : Nat
  voffset : Option (RuntimeEnv → Nat)
  sgprOffset : RuntimeEnv → Nat
  auxFlags : Nat
  storeCast : Bool
  resultCast : Bool

/-- The whole `RawBufferOpLowering::matchAndRewrite` (source lines
41-254), with the three failure points in source order: the chipset gate
(lines 49-50), width adaptation (lines 73-95), and `getStridesAndOffset`
(lines 109-112). On success it assembles the emitted pieces. -/
def matchAndRewrite (inp : LoweringInput) : Except LoweringError LoweredOp :=
  if inp.chipset.majorVersion < 9 then
    .error .unsupportedChipset
  else
    match bufferValType inp.wantedDataType with
    | .error e => .error e
    | .ok bufTy =>
        let ebw := elementByteWidth inp.memref.elementBitWidth
        match inp.memref.stridesAndOffset with
        | none => .error .unrepresentableLayout
        | some (strides, offset) =>
            .ok
              { bufferValTy := bufTy
                word0 := fun env => descWord0 env.baseAddr
                word1 := fun env => descWord1 env.baseAddr
                numRecords := lowerNumRecords inp.memref.shape ebw
                word3 := descWord3 inp.chipset inp.boundsCheck
                voffset := lowerVoffset ebw (strides.take inp.numIndices) inp.indexOffset
                sgprOffset := lowerSgprOffset inp.hasSgprOffset offset
                auxFlags := 0
                storeCast := inp.hasStoreData && bufTy != inp.wantedDataType
                resultCast := inp.numResults == 1 && bufTy != inp.wantedDataType }

/-! Concrete runtime environments and inputs used by concrete theorems. -/

/-- Runtime environment with every field zero. -/
def zeroEnv : RuntimeEnv :=
  { baseAddr := 0, size := fun _ => 0, stride := fun _ => 0, offset := 0,
    index := fun _ => 0, sgpr := 0 }

/-- Runtime environment whose sgpr-offset operand carries 7. -/
def sgprEnv : RuntimeEnv := { zeroEnv with sgpr := 7 }

/-- Runtime environment with every runtime size 3 and every runtime
stride 5. -/
def dynEnv : RuntimeEnv := { zeroEnv with size := fun _ => 3, stride := fun _ => 5 }

/-- A rank-0 memref of a 32-bit element type with the trivial layout. -/
def memref0d : MemRefInfo :=
  { elementBitWidth := 32, shape := [], stridesAndOffset := some ([], .known 0) }

/-- A gfx9 scalar load from `memref0d` with no index operands, no
index-offset attribute and no sgpr-offset operand. -/
def load0d : LoweringInput :=
  { chipset := { majorVersion := 9, minorVersion := 0 }
    memref := memref0d
    hasStoreData := false
    wantedDataType := .scalar 32
    boundsCheck := true
    numIndices := 0
    indexOffset := none
    hasSgprOffset := false
    numResults := 1 }

/-! Claim theorems. -/

/-- C9: the 128-bit total-width limit and the multiple-of-32 packing
check are enforced only for vector logical types: for every non-vector
data type, of any bit width (including widths greater than 128), width
adaptation never fails and the wire type equals the logical type. -/
theorem C9_scalar_passthrough (b : Nat) :
    bufferValType (.scalar b) = .ok (.scalar b) := rfl

/-- C7: for every chipset with `majorVersion < 9`, the lowering of every
raw-buffer access operation fails with the unsupported-chipset error,
regardless of the operand shape, type, or indices. -/
theorem C7_chipset_gate (inp : LoweringInput)
    (h : inp.chipset.majorVersion < 9) :
    matchAndRewrite inp = .error .unsupportedChipset := by
  unfold matchAndRewrite
  rw [if_pos h]

/-- C7 witness: a gfx8 chipset is rejected on a concrete load. -/
theorem C7_chipset_gate_witness :
    matchAndRewrite { load0d with chipset := { majorVersion := 8, minorVersion := 0 } } =
      .error .unsupportedChipset :=
  C7_chipset_gate _ (by decide)

/-- C4: descriptor word 3 always has bits 12-14 set to 7 and the field at
bits 15-18 set to 4; when `majorVersion = 10` it additionally has bit 24
set and bits 28-29 equal to 3 when bounds checking is requested and 2
otherwise; for any other generation, bit 24 and bits 28-29 are zero
regardless of the request. -/
theorem C4_word3_fields (c : Chipset) (bc : Bool) :
    ((descWord3 c bc >>> 12) &&& 7 = 7) ∧
    ((descWord3 c bc >>> 15) &&& 15 = 4) ∧
    (c.majorVersion = 10 →
      (descWord3 c bc).testBit 24 = true ∧
      ((descWord3 c bc >>> 28) &&& 3 = if bc then 3 else 2)) ∧
    (c.majorVersion ≠ 10 →
      (descWord3 c bc).testBit 24 = false ∧
      (descWord3 c bc >>> 28) &&& 3 = 0) := by
  by_cases h : c.majorVersion = 10 <;> cases bc <;>
    simp only [descWord3, h, if_true, if_false, ite_true, ite_false] <;>
    refine ⟨by decide, by decide, ?_, ?_⟩ <;> simp_all <;> decide

/-- C4 witness: concrete gfx10 and gfx9 chipsets. -/
theorem C4_word3_fields_witness :
    (descWord3 { majorVersion := 10, minorVersion := 0 } true).testBit 24 = true ∧
    ((descWord3 { majorVersion := 10, minorVersion := 0 } true >>> 28) &&& 3 = 3) ∧
    ((descWord3 { majorVersion := 10, minorVersion := 0 } false >>> 28) &&& 3 = 2) ∧
    (descWord3 { majorVersion := 9, minorVersion := 0 } true).testBit 24 = false ∧
    ((descWord3 { majorVersion := 9, minorVersion := 0 } true >>> 28) &&& 3 = 0) := by
  refine ⟨?_, ?_, ?_, ?_, ?_⟩
  · exact ((C4_word3_fields ⟨10, 0⟩ true).2.2.1 rfl).1
  · simpa using ((C4_word3_fields ⟨10, 0⟩ true).2.2.1 rfl).2
  · simpa using ((C4_word3_fields ⟨10, 0⟩ false).2.2.1 rfl).2
  · exact ((C4_word3_fields ⟨9, 0⟩ true).2.2.2 (by decide)).1
  · exact ((C4_word3_fields ⟨9, 0⟩ true).2.2.2 (by decide)).2

/-- Any natural below `2 ^ 16` masked with `0xffff0000` gives zero. -/
theorem and_ffff0000_of_lt (y : Nat) (hy : y < 2 ^ 16) :
    y &&& 0xffff0000 = 0 := by
  apply Nat.eq_of_testBit_eq
  intro i
  simp only [Nat.testBit_and, Nat.zero_testBit]
  rcases lt_or_ge i 16 with hi | hi
  · have hm : (0xffff0000 : Nat).testBit i = false := by
      interval_cases i <;> decide
    simp [hm]
  · have hyi : y.testBit i = false :=
      Nat.testBit_lt_two_pow (lt_of_lt_of_le hy (Nat.pow_le_pow_right (by norm_num) hi))
    simp [hyi]

/-- C6: for every base address, descriptor word 1 equals the address
shifted right by 32 bits, truncated to 32 bits, and masked with
`0x0000ffff`; consequently `word1 &&& 0xffff0000 = 0` for all inputs. -/
theorem C6_word1_mask (baseAddr : Nat) :
    descWord1 baseAddr = ((baseAddr % 2 ^ 64) >>> 32) &&& 0xffff ∧
    descWord1 baseAddr &&& 0xffff0000 = 0 := by
  have hlt : (baseAddr % 2 ^ 64) >>> 32 < 2 ^ 32 := by
    rw [Nat.shiftRight_eq_div_pow]
    exact Nat.div_lt_of_lt_mul (by
      calc baseAddr % 2 ^ 64 < 2 ^ 64 := Nat.mod_lt _ (by norm_num)
        _ = 2 ^ 32 * 2 ^ 32 := by norm_num)
  constructor
  · unfold descWord1
    rw [Nat.mod_eq_of_lt hlt]
  · exact and_ffff0000_of_lt _ (lt_of_le_of_lt
      (Nat.and_le_right) (by norm_num [descWord1]))

/-- C2: on an access with no index operands and no index-offset
attribute, the source never materializes `voffset`: it stays a null
`Value` that is passed to the intrinsic (here: the lowering succeeds but
its voffset is absent), where the claim requires a zero constant. -/
theorem C2_voffset_left_null :
    (matchAndRewrite load0d).map (fun out => out.voffset.isSome) = .ok false := rfl

/-- The sgprOffset computation exactly as claim C1 words it: start from
the caller-supplied dynamic offset operand if present, else zero; if the
base offset is dynamic, add the runtime offset field; else if the static
base offset is NONZERO, add that constant. (Second definition written
from the claim, to be compared against `lowerSgprOffset`.) -/
def sgprOffsetClaimed (hasSgprOffset : Bool) (offset : SVal) : RuntimeEnv → Nat :=
  fun env =>
    let base : Nat := if hasSgprOffset then env.sgpr else 0
    match offset with
    | .dynamic => (base + env.offset) % 2 ^ 32
    | .known v => if v ≠ 0 then (base + i32pat v) % 2 ^ 32 else base

/-- C1 counterexample: for a static base offset of `-4` (nonzero but not
positive) the source adds nothing (the `offset > 0` guard fails), while
the claim as stated adds the constant. -/
theorem C1_sgpr_counterexample :
    lowerSgprOffset false (.known (-4)) zeroEnv = 0 ∧
    sgprOffsetClaimed false (.known (-4)) zeroEnv = 4294967292 ∧
    lowerSgprOffset false (.known (-4)) zeroEnv ≠
      sgprOffsetClaimed false (.known (-4)) zeroEnv := by
  refine ⟨rfl, ?_, ?_⟩ <;> decide

/-- C1 (amended): the emitted sgprOffset equals the caller-supplied
dynamic addend (else zero) plus the runtime offset field when the base
offset is dynamic, plus the constant base offset when it is static and
STRICTLY POSITIVE (a non-positive static offset contributes nothing),
all reduced to a 32-bit value. -/
theorem C1_sgpr_offset (hasSgprOffset : Bool) (offset : SVal) (env : RuntimeEnv)
    (h : env.sgpr < 2 ^ 32) :
    lowerSgprOffset hasSgprOffset offset env =
      ((if hasSgprOffset then env.sgpr else 0) +
        (match offset with
         | .dynamic => env.offset
         | .known v => if 0 < v then i32pat v else 0)) % 2 ^ 32 := by
  cases offset with
  | dynamic =>
      simp only [lowerSgprOffset]
      rw [Nat.add_comm]
  | known v =>
      by_cases hv : 0 < v
      · simp only [lowerSgprOffset, if_pos hv]
      · have hb : (if hasSgprOffset then env.sgpr else 0) < 2 ^ 32 := by
          cases hasSgprOffset
          · norm_num
          · simpa using h
        simp only [lowerSgprOffset, if_neg hv, Nat.add_zero]
        exact (Nat.mod_eq_of_lt hb).symm

/-- C1 witness: with a supplied sgpr operand of 7 and a static offset of
5, the emitted value is 12. -/
theorem C1_sgpr_offset_witness :
    lowerSgprOffset true (.known 5) sgprEnv = 12 := by
  have h := C1_sgpr_offset true (.known 5) sgprEnv (by norm_num [sgprEnv, zeroEnv])
  simpa [sgprEnv, zeroEnv, i32pat] using h

/-- The width-adaptation policy exactly as claim C5 words it, except that
the total width is computed in 32-bit arithmetic as in the source
(`uint32_t totalBits`), i.e. modulo `2 ^ 32` — the single amendment.
(Second definition written from the claim, to be compared against
`bufferValType`; `none` stands for the two failure cases.) -/
def wireTypeClaimed : DataType → Option DataType
  | .scalar b => some (.scalar b)
  | .vector n b =>
      let total := (b * n) % 2 ^ 32
      if total > 128 then none
      else if 32 ≤ b then some (.vector n b)
      else if total ≤ 32 then some (.scalar total)
      else if total % 32 = 0 then some (.vector (total / 32) 32)
      else none

/-- C5 counterexample: a vector of `2 ^ 30` elements of 4 bits has true
total width `2 ^ 32 > 128`, but the 32-bit `totalBits` wraps to 0, so the
source does not fail (the claim requires failure) and instead produces a
0-bit scalar wire type. -/
theorem C5_width_counterexample :
    bufferValType (.vector 1073741824 4) = .ok (.scalar 0) ∧
    1073741824 * 4 > 128 := by
  constructor
  · rfl
  · norm_num

/-- C5 (amended): with `total = (N * B) % 2 ^ 32` (the 32-bit arithmetic
the source uses), width adaptation behaves exactly as the claim states:
non-vector types pass through; `total > 128` fails; `B ≥ 32` keeps the
logical type; `B < 32` with `total ≤ 32` gives a scalar of width `total`;
`B < 32` with `total > 32` fails unless `total` is a multiple of 32, in
which case the wire type is a vector of `total / 32` 32-bit words. -/
theorem C5_width_adaptation (t : DataType) :
    (bufferValType t).toOption = wireTypeClaimed t := by
  cases t with
  | scalar b => rfl
  | vector n b =>
      simp only [bufferValType, wireTypeClaimed, maxVectorOpWidth]
      split_ifs <;> simp_all [Except.toOption] <;> omega

/-- Bit pattern of a nonnegative constant: `i32pat` of a natural is the
natural reduced modulo `2 ^ 32`. -/
theorem i32pat_natCast (n : Nat) : i32pat (n : Int) = n % 2 ^ 32 := by
  unfold i32pat
  omega

/-- Unrolling of `numRecordsLoop` once the accumulator is populated: the
loop computes a running `max` over the remaining candidates. -/
theorem numRecordsLoop_some (ebw : Nat) (dims : List Nat) (f : RuntimeEnv → Nat) :
    numRecordsLoop ebw dims (some f) =
      some (fun env => dims.foldl (fun acc i => max acc (dynCandidate ebw i env)) (f env)) := by
  induction dims generalizing f with
  | nil => rfl
  | cons i rest ih =>
      simp only [numRecordsLoop, List.foldl_cons]
      rw [ih]

/-- On a nonempty dimension list, `numRecordsLoop` starting from the null
accumulator computes the `max` of all candidates. -/
theorem numRecordsLoop_none (ebw : Nat) (dims : List Nat) (hne : dims ≠ []) :
    numRecordsLoop ebw dims none =
      some (fun env => dims.foldl (fun acc i => max acc (dynCandidate ebw i env)) 0) := by
  cases dims with
  | nil => exact absurd rfl hne
  | cons i rest =>
      simp only [numRecordsLoop, List.foldl_cons]
      rw [numRecordsLoop_some]
      congr 1
      funext env
      rw [Nat.zero_max]

/-- Congruence for the max-accumulating fold. -/
theorem foldl_max_congr (c1 c2 : Nat → Nat) : ∀ (dims : List Nat) (s : Nat),
    (∀ i ∈ dims, c1 i = c2 i) →
    dims.foldl (fun acc i => max acc (c1 i)) s =
      dims.foldl (fun acc i => max acc (c2 i)) s := by
  intro dims
  induction dims with
  | nil => intro s _; rfl
  | cons i rest ih =>
      intro s h
      simp only [List.foldl_cons]
      rw [h i (by simp)]
      exact ih _ (fun j hj => h j (by simp [hj]))

/-- C3 counterexample: for the static shape `[2 ^ 30]` with 64-bit
elements, the product of sizes times the element byte width is `2 ^ 33`,
but the emitted compile-time constant is the `int32_t` cast of that
value, namely 0 — the claim states the constant is the untruncated
product. -/
theorem C3_records_counterexample :
    lowerNumRecords [.known 1073741824] (elementByteWidth 64) = some (.const 0) ∧
    staticNumElements [.known 1073741824] * elementByteWidth 64 = 8589934592 ∧
    (0 : Nat) ≠ 8589934592 := by
  refine ⟨rfl, by norm_num [staticNumElements, elementByteWidth], by norm_num⟩

/-- C3 (amended): when every dimension size is static, word 2 is the
compile-time constant `(product of sizes) * elementByteWidth` TRUNCATED
TO 32 BITS; when any dimension is dynamic, it is a runtime value (not a
compile-time constant) equal to the maximum over dimensions of
`size_i * stride_i * elementByteWidth`, truncated to 32 bits (stated
under the side condition that the 64-bit products do not wrap). -/
theorem C3_num_records (shape : List SSize) (ebw : Nat) :
    (hasStaticShape shape = true →
      lowerNumRecords shape ebw =
        some (.const ((staticNumElements shape * ebw) % 2 ^ 32))) ∧
    (hasStaticShape shape = false →
      (∀ v, lowerNumRecords shape ebw ≠ some (.const v)) ∧
      ∀ env : RuntimeEnv,
        (∀ i, i < shape.length →
          env.stride i * ebw < 2 ^ 64 ∧ env.size i * (env.stride i * ebw) < 2 ^ 64) →
        (lowerNumRecords shape ebw).map (fun r => r.eval env) =
          some (((List.range shape.length).foldl
            (fun acc i => max acc (env.size i * (env.stride i * ebw))) 0) % 2 ^ 32)) := by
  constructor
  · intro hs
    simp only [lowerNumRecords, hs, ite_true, if_true, i32pat_natCast]
  · intro hs
    have hne : List.range shape.length ≠ [] := by
      intro hc
      rw [List.range_eq_nil] at hc
      rw [List.length_eq_zero] at hc
      rw [hc] at hs
      simp [hasStaticShape] at hs
    have hrw : lowerNumRecords shape ebw =
        some (.dyn (fun env =>
          ((List.range shape.length).foldl
            (fun acc i => max acc (dynCandidate ebw i env)) 0) % 2 ^ 32)) := by
      unfold lowerNumRecords
      rw [if_neg (by simp [hs]), numRecordsLoop_none _ _ hne]
    refine ⟨?_, ?_⟩
    · intro v hcontra
      rw [hrw] at hcontra
      simp at hcontra
    · intro env hb
      have hc : ∀ i ∈ List.range shape.length,
          dynCandidate ebw i env = env.size i * (env.stride i * ebw) := by
        intro i hi
        rw [List.mem_range] at hi
        unfold dynCandidate
        rw [Nat.mod_eq_of_lt (hb i hi).1, Nat.mod_eq_of_lt (hb i hi).2]
      rw [hrw]
      simp only [Option.map, I32Val.eval]
      rw [foldl_max_congr _ _ _ 0 hc]

/-- C3 witness: one dynamic dimension with runtime size 3, runtime
stride 5 and element byte width 4 gives the runtime record count 60. -/
theorem C3_num_records_witness :
    (lowerNumRecords [.dynamic] 4).map (fun r => r.eval dynEnv) = some 60 := by
  have hb : ∀ i, i < ([SSize.dynamic] : List SSize).length →
      dynEnv.stride i * 4 < 2 ^ 64 ∧ dynEnv.size i * (dynEnv.stride i * 4) < 2 ^ 64 := by
    intro i hi
    constructor <;> norm_num [dynEnv, zeroEnv]
  have h := ((C3_num_records [.dynamic] 4).2 rfl).2 dynEnv hb
  simpa [dynEnv, zeroEnv] using h

/-- C8: for any logical type whose wire type differs, the store-side
bitcast to the wire type composed with the load-side bitcast back is the
identity on bit patterns, the wire width equals the logical width (so the
same bits fit), and no numeric conversion happens at either boundary. -/
theorem C8_cast_roundtrip (t w : DataType) (hw : bufferValType t = .ok w)
    (hne : w ≠ t) (htotal : bitWidthOf t < 2 ^ 32) (bits : Nat)
    (hbits : bits < 2 ^ bitWidthOf t) :
    bitWidthOf w = bitWidthOf t ∧
    bits < 2 ^ bitWidthOf w ∧
    loadLogicalBits t w (storeWireBits t w bits) = bits := by
  have hwidth : bitWidthOf w = bitWidthOf t := by
    cases t with
    | scalar b =>
        simp only [bufferValType] at hw
        injection hw with hv
        exact absurd hv.symm hne
    | vector n b =>
        have hmod : (b * n) % 2 ^ 32 = b * n :=
          Nat.mod_eq_of_lt (by rw [Nat.mul_comm]; exact htotal)
        simp only [bufferValType, maxVectorOpWidth, hmod] at hw
        split_ifs at hw with h1 h2 h3 h4 <;>
          first
          | exact Except.noConfusion hw
          | (injection hw with hv
             subst hv
             simp only [bitWidthOf]
             try
               first
               | exact Nat.mul_comm b n
               | (rw [Nat.div_mul_cancel (Nat.dvd_of_mod_eq_zero (by omega))]
                  exact Nat.mul_comm b n))
  refine ⟨hwidth, by rw [hwidth]; exact hbits, ?_⟩
  simp [loadLogicalBits, storeWireBits, bitcast]

/-- C8 witness: a vector of four 8-bit elements travels as a single
32-bit scalar; the bit pattern 77 round-trips unchanged. -/
theorem C8_cast_roundtrip_witness :
    bitWidthOf (.scalar 32) = bitWidthOf (.vector 4 8) ∧
    (77 : Nat) < 2 ^ bitWidthOf (.scalar 32) ∧
    loadLogicalBits (.vector 4 8) (.scalar 32)
      (storeWireBits (.vector 4 8) (.scalar 32) 77) = 77 :=
  C8_cast_roundtrip (.vector 4 8) (.scalar 32) rfl (by decide)
    (by norm_num [bitWidthOf]) 77 (by norm_num [bitWidthOf])

/-- A gfx9 scalar load of a 4-bit element type over a static rank-1
memref with unit stride and zero offset. -/
def subByteLoad : LoweringInput :=
  { chipset := { majorVersion := 9, minorVersion := 0 }
    memref := { elementBitWidth := 4, shape := [.known 6],
                stridesAndOffset := some ([.known 1], .known 0) }
    hasStoreData := false
    wantedDataType := .scalar 4
    boundsCheck := false
    numIndices := 1
    indexOffset := none
    hasSgprOffset := false
    numResults := 1 }

/-- C10: `elementByteWidth` is a truncating division by 8, so every
element type narrower than 8 bits yields byte width 0; the lowering still
succeeds (the zero byte width never causes a failure), and every static
byte-stride or index-offset constant and every static record count
derived from it is 0. -/
theorem C10_subbyte_width (w : Nat) (h : w < 8) :
    elementByteWidth w = 0 ∧
    (∀ v : Int, i32pat (v * (elementByteWidth w : Int)) = 0) ∧
    (∀ shape : List SSize, hasStaticShape shape = true →
      lowerNumRecords shape (elementByteWidth w) = some (.const 0)) ∧
    (∀ inp : LoweringInput, inp.memref.elementBitWidth = w →
      9 ≤ inp.chipset.majorVersion →
      (∃ bt, bufferValType inp.wantedDataType = .ok bt) →
      (∃ so, inp.memref.stridesAndOffset = some so) →
      (matchAndRewrite inp).isOk = true) := by
  have hebw : elementByteWidth w = 0 := Nat.div_eq_of_lt h
  refine ⟨hebw, ?_, ?_, ?_⟩
  · intro v
    rw [hebw]
    simp [i32pat]
  · intro shape hs
    rw [hebw]
    simp [lowerNumRecords, hs, i32pat]
  · rintro inp hwid h9 ⟨bt, hbt⟩ ⟨⟨strides, offset⟩, hso⟩
    unfold matchAndRewrite
    rw [if_neg (by omega), hbt, hso]
    rfl

/-- C10 witness: a concrete 4-bit element type. -/
theorem C10_subbyte_width_witness :
    elementByteWidth 4 = 0 ∧
    i32pat (5 * (elementByteWidth 4 : Int)) = 0 ∧
    lowerNumRecords [.known 6] (elementByteWidth 4) = some (.const 0) ∧
    (matchAndRewrite subByteLoad).isOk = true := by
  obtain ⟨h1, h2, h3, h4⟩ := C10_subbyte_width 4 (by norm_num)
  exact ⟨h1, h2 5, h3 [.known 6] rfl,
    h4 subByteLoad rfl (by decide) ⟨.scalar 4, rfl⟩ ⟨([.known 1], .known 0), rfl⟩⟩

end AMDGPUToROCDL
